import Mathlib

/-!
# meshery-nginx adapter: the dynamic capability registration loop

A shallow embedding of `main.go`: `mesheryServerAddress`, `serviceAddress`,
`registerWorkloads` and `registerDynamicCapabilities`, together with the part of
Go's `strings` package that `registerWorkloads` calls.

Go strings are modelled by Lean strings (sequences of code points).  The only
pattern searched for in `main.go` is the one-byte ASCII string `"v"` (and the
ASCII prefix `"http"`), for which searching bytes and searching code points of
a UTF-8 string find the same places.

The outbound calls (release feed, chart resolution, registration sink, process
environment) are the fields of a `World`; a registration pass returns the list
of the events it performed, in order, and how it ended.
-/

namespace MesheryNginx

/-! ## Go's `strings` package -/

namespace strings

/-- Go `strings.HasPrefix(s, prefix)`. -/
def HasPrefix (s pre : String) : Bool :=
  pre.data.isPrefixOf s.data

/-- Go `strings.Index(s, substr)` on the characters of the two strings: the
position of the first instance of `substr` in `s`; `none` stands for `-1`. -/
def indexChars (substr : List Char) : List Char → Option Nat
  | [] => if substr.isEmpty then some 0 else none
  | c :: cs =>
    if substr.isPrefixOf (c :: cs) then some 0
    else (indexChars substr cs).map (fun i => i + 1)

/-- The loop of Go `strings.Count` for a non-empty `substr`:
`for { i := Index(s, substr); if i == -1 { return n }; n++; s = s[i+len(substr):] }`.
Every round drops at least one character, so `fuel = len(s)` rounds are enough
(`countLoop_fuel`). -/
def countLoop (substr : List Char) : Nat → List Char → Nat
  | 0, _ => 0
  | fuel + 1, s =>
    match indexChars substr s with
    | none => 0
    | some i => countLoop substr fuel (s.drop (i + substr.length)) + 1

/-- Go `strings.Count(s, substr)`: the number of non-overlapping instances of
`substr` in `s`; for an empty `substr` it is the number of code points plus one. -/
def countChars (s substr : List Char) : Nat :=
  if substr.length = 0 then s.length + 1 else countLoop substr s.length s

/-- The replacement loop of Go `strings.Replace`, `rest` being `s[start:]` and `i`
the loop counter:
`j := start; if len(old) == 0 { if i > 0 { j += wid } } else { j += Index(s[start:], old) }`
`b.WriteString(s[start:j]); b.WriteString(new); start = j + len(old)`
and after the loop `b.WriteString(s[start:])`.  The loop runs at most
`Count(s, old)` times, so `Index` finds an instance in every round. -/
def replaceLoop (old new : List Char) : Nat → Nat → List Char → List Char
  | 0, _, rest => rest
  | n + 1, i, rest =>
    let j : Nat :=
      if old.length = 0 then (if 0 < i then 1 else 0)
      else (indexChars old rest).getD 0
    rest.take j ++ new ++ replaceLoop old new n (i + 1) (rest.drop (j + old.length))

/-- Go `strings.Replace(s, old, new, n)`: a copy of `s` with the first `n`
non-overlapping instances of `old` replaced by `new`; `n < 0` means no limit. -/
def Replace (s old new : String) (n : Int) : String :=
  if old = new ∨ n = 0 then s
  else
    let m := countChars s.data old.data
    if m = 0 then s
    else
      let k : Nat := if n < 0 ∨ (m : Int) < n then m else n.toNat
      ⟨replaceLoop old.data new.data k 0 s.data⟩

end strings

/-! ## Data model -/

/-- Go `error` values: `none` is `nil`, `some msg` an error with its message. -/
abbrev GoError := Option String

/-- One entry of the release feed (`config.Release`, declared in another package);
only `TagName` is read. -/
structure Release where
  TagName : String
  deriving DecidableEq, Repr

/-- The fields of `manifests.CrdFilter` that `registerWorkloads` sets. -/
structure CrdFilter where
  RootFilter : List String
  NameFilter : List String
  VersionFilter : List String
  GroupFilter : List String
  SpecFilter : List String
  ItrFilter : List String
  ItrSpecFilter : List String
  VField : String
  GField : String
  deriving DecidableEq, Repr

/-- The fields of `manifests.Config` that `registerWorkloads` sets. -/
structure Config where
  Name : String
  MeshVersion : String
  Filter : CrdFilter
  deriving DecidableEq, Repr

/-- The generation methods of the adapter library (`adapter.HelmCHARTS`,
`adapter.Manifests`). -/
inductive GenerationMethod where
  | HelmCHARTS
  | Manifests
  deriving DecidableEq, Repr

/-- The rule handed to the registration sink (`adapter.DynamicComponentsConfig`). -/
structure DynamicComponentsConfig where
  TimeoutInMinutes : Nat
  URL : String
  GenerationMethod : GenerationMethod
  Config : Config
  Operation : String
  deriving DecidableEq, Repr

/-- What a registration pass does to the outside, in program order. -/
inductive Event where
  | GetLatestReleases (n : Nat)
  | HelmAppVersionToChartVersion (repo chart appVersion : String)
  | RegisterWorkLoadsDynamically (server self : String) (rule : DynamicComponentsConfig)
  | logInfo (args : List String)
  | logError (err : String)
  deriving DecidableEq, Repr

/-- How a call of `registerWorkloads` ends: it returns to its caller, or the Go
runtime panics (index out of range). -/
inductive Outcome where
  | returned
  | panicked
  deriving DecidableEq, Repr

/-- The collaborators of `main.go` that are not part of it.  `Getenv` is
`os.Getenv`; the three calls return what the Go functions return (a value and an
error side by side); `ServiceMeshTypeName` is
`smp.ServiceMesh_Type_name[int32(smp.ServiceMesh_NGINX_SERVICE_MESH)]` and
`NginxOperation` is `config.NginxOperation`, two constants declared in other
packages. -/
structure World where
  Getenv : String → String
  GetLatestReleases : Nat → List Release × GoError
  HelmAppVersionToChartVersion : String → String → String → String × GoError
  RegisterWorkLoadsDynamically : String → String → DynamicComponentsConfig → GoError
  ServiceMeshTypeName : String
  NginxOperation : String

/-! ## `main.go` -/

/-- The constant `repo` of `main.go`. -/
def repo : String := "https://helm.nginx.com/stable"

/-- The constant `chart` of `main.go`. -/
def chart : String := "nginx-service-mesh"

/-- The function `mesheryServerAddress` of `main.go`. -/
def mesheryServerAddress (w : World) : String :=
  let meshReg := w.Getenv "MESHERY_SERVER"
  if meshReg ≠ "" then
    if strings.HasPrefix meshReg "http" then meshReg
    else "http://" ++ meshReg
  else "http://localhost:9081"

/-- The function `serviceAddress` of `main.go`. -/
def serviceAddress (w : World) : String :=
  let svcAddr := w.Getenv "SERVICE_ADDR"
  if svcAddr ≠ "" then svcAddr else "localhost"

/-- The `manifests.CrdFilter` literal of `registerWorkloads`. -/
def crdFilter : CrdFilter where
  RootFilter := ["$[?(@.kind==\"CustomResourceDefinition\")]"]
  NameFilter := ["$..[\"spec\"][\"names\"][\"kind\"]"]
  VersionFilter := ["$..spec.versions[0]", " --o-filter", "$[0]"]
  GroupFilter := ["$..spec", " --o-filter", "$[]"]
  SpecFilter := ["$..openAPIV3Schema.properties.spec", " --o-filter", "$[]"]
  ItrFilter := ["$[?(@.spec.names.kind"]
  ItrSpecFilter := ["$[?(@.spec.names.kind"]
  VField := "name"
  GField := "group"

/-- The `adapter.DynamicComponentsConfig` literal of `registerWorkloads`, with the
two local variables it reads: `version` (the tag as the feed gave it) and
`chartVersion`. -/
def dynamicComponentsConfig (w : World) (version chartVersion : String) :
    DynamicComponentsConfig where
  TimeoutInMinutes := 60
  URL := "https://github.com/nginxinc/helm-charts/blob/master/stable/nginx-service-mesh-"
    ++ chartVersion ++ ".tgz?raw=true"
  GenerationMethod := GenerationMethod.HelmCHARTS
  Config :=
    { Name := w.ServiceMeshTypeName
      MeshVersion := version
      Filter := crdFilter }
  Operation := w.NginxOperation

/-- The function `registerWorkloads` of `main.go`: one registration pass. -/
def registerWorkloads (w : World) (port : String) : List Event × Outcome :=
  match w.GetLatestReleases 1 with
  | (_, some _) =>
    ([Event.GetLatestReleases 1, Event.logInfo ["Could not get latest version"]],
      Outcome.returned)
  | (release, none) =>
    match release with
    | [] => ([Event.GetLatestReleases 1], Outcome.panicked)
    | r :: _ =>
      let version := r.TagName
      let res := strings.Replace version "v" "" 1
      let answer := w.HelmAppVersionToChartVersion repo chart res
      let chartVersion := answer.1
      let err := answer.2
      let server := mesheryServerAddress w
      let self := serviceAddress w ++ ":" ++ port
      let rule := dynamicComponentsConfig w version chartVersion
      let upToSink : List Event :=
        [Event.GetLatestReleases 1,
          Event.logInfo ["Registering latest workload components for version ", version],
          Event.HelmAppVersionToChartVersion repo chart res]
        ++ (match err with
            | some e => [Event.logInfo ["Could not change the version string", e]]
            | none => [])
        ++ [Event.RegisterWorkLoadsDynamically server self rule]
      match w.RegisterWorkLoadsDynamically server self rule with
      | some e => (upToSink ++ [Event.logError e], Outcome.returned)
      | none =>
        (upToSink ++ [Event.logInfo ["Latest workload components successfully registered."]],
          Outcome.returned)

/-- The arguments of the chart resolution calls in a list of events. -/
def chartCalls : List Event → List (String × String × String)
  | [] => []
  | Event.HelmAppVersionToChartVersion r c a :: es => (r, c, a) :: chartCalls es
  | _ :: es => chartCalls es

/-- The rules submitted to the registration sink in a list of events. -/
def submittedRules : List Event → List DynamicComponentsConfig
  | [] => []
  | Event.RegisterWorkLoadsDynamically _ _ rule :: es => rule :: submittedRules es
  | _ :: es => submittedRules es

/-- The log lines in a list of events. -/
def logLines : List Event → List Event
  | [] => []
  | Event.logInfo a :: es => Event.logInfo a :: logLines es
  | Event.logError e :: es => Event.logError e :: logLines es
  | _ :: es => logLines es

/-- A world for examples: no environment variables set, the given feed answer and
chart resolution answer, a sink that accepts. -/
def exampleWorld (feed : List Release × GoError) (chartAnswer : String × GoError) : World where
  Getenv := fun _ => ""
  GetLatestReleases := fun _ => feed
  HelmAppVersionToChartVersion := fun _ _ _ => chartAnswer
  RegisterWorkLoadsDynamically := fun _ _ _ => none
  ServiceMeshTypeName := "NGINX_SERVICE_MESH"
  NginxOperation := "nginx"

/-! ## `registerDynamicCapabilities` -/

/-- A world in which the feed gives the one tag `v2.5.0`, chart resolution fails
with an empty chart version, and the sink rejects the rule. -/
def rejectingWorld : World where
  Getenv := fun _ => ""
  GetLatestReleases := fun _ => ([⟨"v2.5.0"⟩], none)
  HelmAppVersionToChartVersion := fun _ _ _ => ("", some "no entry")
  RegisterWorkLoadsDynamically := fun _ _ _ => some "rejected"
  ServiceMeshTypeName := "NGINX_SERVICE_MESH"
  NginxOperation := "nginx"

/-- The normalization the specification describes: the first occurrence of the
marker character `v` is removed, and nothing else. -/
def removeFirstMarker (tag : String) : String :=
  ⟨tag.data.erase 'v'⟩

/-- A list of query expressions is populated: it is not empty and none of its
expressions is the empty string. -/
def populated (l : List String) : Prop :=
  l ≠ [] ∧ ∀ x ∈ l, x ≠ ""

/-- The specification's "all selector fields are set together": each of the nine
fields of the filter is populated. -/
def CrdFilter.FullyPopulated (f : CrdFilter) : Prop :=
  populated f.RootFilter ∧ populated f.NameFilter ∧ populated f.VersionFilter
  ∧ populated f.GroupFilter ∧ populated f.SpecFilter ∧ populated f.ItrFilter
  ∧ populated f.ItrSpecFilter ∧ f.VField ≠ "" ∧ f.GField ≠ ""

/-! ## `strings.Index`, `strings.Count`, `strings.Replace` for a one-character pattern -/

theorem indexChars_single_cons (c x : Char) (xs : List Char) :
    strings.indexChars [c] (x :: xs)
      = if c = x then some 0 else (strings.indexChars [c] xs).map (fun i => i + 1) := by
  by_cases h : c = x <;> simp [strings.indexChars, List.isPrefixOf, h]

theorem indexChars_single_not_mem (c : Char) (s : List Char) (h : c ∉ s) :
    strings.indexChars [c] s = none := by
  induction s with
  | nil => simp [strings.indexChars]
  | cons x xs ih =>
    have hx : c ≠ x := fun e => h (by simp [e])
    have hxs : c ∉ xs := fun e => h (by simp [e])
    rw [indexChars_single_cons, if_neg hx, ih hxs]
    rfl

theorem indexChars_single_first (c : Char) (a b : List Char) (h : c ∉ a) :
    strings.indexChars [c] (a ++ c :: b) = some a.length := by
  induction a with
  | nil => simp [indexChars_single_cons]
  | cons x xs ih =>
    have hx : c ≠ x := fun e => h (by simp [e])
    have hxs : c ∉ xs := fun e => h (by simp [e])
    rw [List.cons_append, indexChars_single_cons, if_neg hx, ih hxs]
    rfl

theorem countChars_single_not_mem (c : Char) (s : List Char) (h : c ∉ s) :
    strings.countChars s [c] = 0 := by
  unfold strings.countChars
  cases s with
  | nil => simp [strings.countLoop]
  | cons x xs => simp [strings.countLoop, indexChars_single_not_mem c _ h]

theorem countChars_single_first (c : Char) (a b : List Char) (h : c ∉ a) :
    ∃ m, strings.countChars (a ++ c :: b) [c] = m + 1 := by
  unfold strings.countChars
  have hlen : (a ++ c :: b).length = (a.length + b.length) + 1 := by
    simp [List.length_append]; omega
  rw [hlen]
  simp only [List.length_singleton, Nat.one_ne_zero, if_false, strings.countLoop,
    indexChars_single_first c a b h]
  exact ⟨_, rfl⟩

theorem replaceLoop_single_first (c : Char) (a b : List Char) (h : c ∉ a) :
    strings.replaceLoop [c] [] 1 0 (a ++ c :: b) = a ++ b := by
  simp [strings.replaceLoop, indexChars_single_first c a b h]

/-- `strings.Replace(s, "v", "", 1)` when `s` holds a `v`: the first one goes. -/
theorem Replace_v_first (a b : List Char) (h : 'v' ∉ a) :
    strings.Replace ⟨a ++ 'v' :: b⟩ "v" "" 1 = ⟨a ++ b⟩ := by
  obtain ⟨m, hm⟩ := countChars_single_first 'v' a b h
  have hv : ("v" : String).data = ['v'] := rfl
  have he : ("" : String).data = [] := rfl
  have hne : ¬ (("v" : String) = "" ∨ (1 : Int) = 0) := by decide
  unfold strings.Replace
  rw [if_neg hne]
  simp only [hv, he, hm]
  have hk : (if (1 : Int) < 0 ∨ ((m + 1 : Nat) : Int) < 1 then m + 1 else (1 : Int).toNat) = 1 := by
    have : ¬ ((1 : Int) < 0 ∨ ((m + 1 : Nat) : Int) < 1) := by omega
    rw [if_neg this]; rfl
  rw [if_neg (Nat.succ_ne_zero m), hk, replaceLoop_single_first 'v' a b h]

/-- `strings.Replace(s, "v", "", 1)` when `s` holds no `v`: `s` is returned. -/
theorem Replace_v_none (s : String) (h : 'v' ∉ s.data) :
    strings.Replace s "v" "" 1 = s := by
  have hv : ("v" : String).data = ['v'] := rfl
  have hne : ¬ (("v" : String) = "" ∨ (1 : Int) = 0) := by decide
  unfold strings.Replace
  rw [if_neg hne]
  simp only [hv, countChars_single_not_mem 'v' s.data h, if_true]

/-- The code's normalization is the specification's: erase the first `v`. -/
theorem Replace_v_eq_erase (s : String) :
    strings.Replace s "v" "" 1 = removeFirstMarker s := by
  by_cases h : 'v' ∈ s.data
  · obtain ⟨a, b, hab, ha⟩ := List.eq_append_cons_of_mem h
    have hs : s = ⟨a ++ 'v' :: b⟩ := by
      cases s; simp only at hab; rw [hab]
    rw [hs, Replace_v_first a b ha]
    simp [removeFirstMarker, List.erase_append_right _ ha]
  · rw [Replace_v_none s h]
    simp [removeFirstMarker, List.erase_of_not_mem h]

/-! ## The fuel of `countLoop` is enough -/

theorem indexChars_bound (substr : List Char) :
    ∀ (s : List Char) (i : Nat), strings.indexChars substr s = some i →
      i + substr.length ≤ s.length := by
  intro s
  induction s with
  | nil =>
    intro i h
    cases substr with
    | nil => simp [strings.indexChars] at h; simp [← h]
    | cons y ys => simp [strings.indexChars] at h
  | cons c cs ih =>
    intro i h
    unfold strings.indexChars at h
    by_cases hp : substr.isPrefixOf (c :: cs) = true
    · rw [if_pos hp] at h
      have hi : i = 0 := by simpa using h.symm
      have := (List.isPrefixOf_iff_prefix.mp hp).length_le
      omega
    · rw [if_neg hp] at h
      cases hj : strings.indexChars substr cs with
      | none => simp [hj] at h
      | some j =>
        have hi : i = j + 1 := by simpa [hj] using h.symm
        have := ih j hj
        simp only [List.length_cons]
        omega

/-- Any fuel of at least `len(s)` gives `countLoop` the same value: the loop of
`strings.Count` has ended by then. -/
theorem countLoop_fuel (substr : List Char) (hne : substr ≠ []) :
    ∀ (f g : Nat) (s : List Char), s.length ≤ f → s.length ≤ g →
      strings.countLoop substr f s = strings.countLoop substr g s := by
  have hnil : strings.indexChars substr [] = none := by
    cases substr with
    | nil => exact absurd rfl hne
    | cons y ys => simp [strings.indexChars]
  have hpos : 0 < substr.length := List.length_pos.mpr hne
  have hzero : ∀ (g : Nat) (s : List Char), s.length ≤ 0 →
      strings.countLoop substr g s = 0 := by
    intro g s hs
    have : s = [] := List.length_eq_zero.mp (Nat.le_zero.mp hs)
    subst this
    cases g with
    | zero => rfl
    | succ g => simp [strings.countLoop, hnil]
  intro f
  induction f with
  | zero =>
    intro g s hf _
    rw [hzero g s hf]
    rfl
  | succ f ih =>
    intro g s hf hg
    cases g with
    | zero => rw [hzero (f + 1) s hg]; rfl
    | succ g =>
      simp only [strings.countLoop]
      cases hi : strings.indexChars substr s with
      | none => rfl
      | some i =>
        have hb := indexChars_bound substr s i hi
        have hd : (s.drop (i + substr.length)).length = s.length - (i + substr.length) :=
          List.length_drop _ _
        simp only
        rw [ih g (s.drop (i + substr.length)) (by omega) (by omega)]

/-! ## One registration pass -/

theorem registerWorkloads_feed_error (w : World) (port : String) (release : List Release)
    (e : String) (hfeed : w.GetLatestReleases 1 = (release, some e)) :
    registerWorkloads w port
      = ([Event.GetLatestReleases 1, Event.logInfo ["Could not get latest version"]],
          Outcome.returned) := by
  unfold registerWorkloads
  rw [hfeed]

theorem registerWorkloads_feed_empty (w : World) (port : String)
    (hfeed : w.GetLatestReleases 1 = ([], none)) :
    registerWorkloads w port = ([Event.GetLatestReleases 1], Outcome.panicked) := by
  unfold registerWorkloads
  rw [hfeed]

theorem registerWorkloads_returns (w : World) (port : String) (r : Release)
    (rest : List Release) (hfeed : w.GetLatestReleases 1 = (r :: rest, none)) :
    (registerWorkloads w port).2 = Outcome.returned := by
  unfold registerWorkloads
  rw [hfeed]
  simp only
  split <;> rfl

theorem submittedRules_feed_ok (w : World) (port : String) (r : Release)
    (rest : List Release) (hfeed : w.GetLatestReleases 1 = (r :: rest, none)) :
    submittedRules (registerWorkloads w port).1
      = [dynamicComponentsConfig w r.TagName
          (w.HelmAppVersionToChartVersion repo chart
            (strings.Replace r.TagName "v" "" 1)).1] := by
  unfold registerWorkloads
  rw [hfeed]
  simp only
  cases (w.HelmAppVersionToChartVersion repo chart (strings.Replace r.TagName "v" "" 1)).2
    <;> split <;> simp [submittedRules]

theorem chartCalls_feed_ok (w : World) (port : String) (r : Release)
    (rest : List Release) (hfeed : w.GetLatestReleases 1 = (r :: rest, none)) :
    chartCalls (registerWorkloads w port).1
      = [(repo, chart, strings.Replace r.TagName "v" "" 1)] := by
  unfold registerWorkloads
  rw [hfeed]
  simp only
  cases (w.HelmAppVersionToChartVersion repo chart (strings.Replace r.TagName "v" "" 1)).2
    <;> split <;> simp [chartCalls]

theorem string_append_inner_cancel (p q a b : String) (h : p ++ a ++ q = p ++ b ++ q) :
    a = b := by
  have hd := congrArg String.data h
  simp only [String.data_append] at hd
  exact String.ext (List.append_cancel_left (List.append_cancel_right hd))

theorem string_mk_append_marker (a b : String) :
    a ++ "v" ++ b = ⟨a.data ++ 'v' :: b.data⟩ := by
  apply String.ext
  simp [String.data_append]

/-! ## The claims about version normalization -/

/-- C1, as amended: when the feed succeeds with first tag `t`, the pass submits one
rule, whose `MeshVersion` is the tag `t` itself, as the feed gave it; the
normalized version of `t` is what is passed to chart resolution. -/
theorem meshVersion_is_feed_tag (w : World) (port : String) (r : Release)
    (rest : List Release) (hfeed : w.GetLatestReleases 1 = (r :: rest, none)) :
    (submittedRules (registerWorkloads w port).1).map (fun rule => rule.Config.MeshVersion)
        = [r.TagName]
    ∧ chartCalls (registerWorkloads w port).1
        = [(repo, chart, strings.Replace r.TagName "v" "" 1)] := by
  rw [submittedRules_feed_ok w port r rest hfeed, chartCalls_feed_ok w port r rest hfeed]
  exact ⟨rfl, rfl⟩

theorem meshVersion_is_feed_tag_witness :
    (exampleWorld ([⟨"v2.5.0"⟩], none) ("2.5.0", none)).GetLatestReleases 1
        = ([⟨"v2.5.0"⟩], none)
    ∧ (submittedRules
          (registerWorkloads (exampleWorld ([⟨"v2.5.0"⟩], none) ("2.5.0", none)) "10010").1).map
        (fun rule => rule.Config.MeshVersion) = ["v2.5.0"]
    ∧ chartCalls (registerWorkloads (exampleWorld ([⟨"v2.5.0"⟩], none) ("2.5.0", none)) "10010").1
        = [(repo, chart, strings.Replace "v2.5.0" "v" "" 1)] :=
  ⟨rfl, meshVersion_is_feed_tag (exampleWorld ([⟨"v2.5.0"⟩], none) ("2.5.0", none)) "10010"
    ⟨"v2.5.0"⟩ [] rfl⟩

/-- C1, as stated, fails: with the feed `[{tag:"v2.5.0"}]` and chart resolution
returning `"2.5.0"`, the submitted rule has `MeshVersion = "v2.5.0"`, which is
not the normalized version `"2.5.0"` passed to chart resolution. -/
theorem meshVersion_not_normalized :
    (submittedRules
          (registerWorkloads (exampleWorld ([⟨"v2.5.0"⟩], none) ("2.5.0", none)) "10010").1).map
        (fun rule => rule.Config.MeshVersion) = ["v2.5.0"]
    ∧ chartCalls (registerWorkloads (exampleWorld ([⟨"v2.5.0"⟩], none) ("2.5.0", none)) "10010").1
        = [(repo, chart, "2.5.0")]
    ∧ ("v2.5.0" : String) ≠ "2.5.0" := by
  decide

/-- C2: the normalization of `registerWorkloads`, `strings.Replace(tag, "v", "", 1)`,
is the reference definition "remove the first occurrence of `v` and nothing
else"; it is what the pass hands to chart resolution; a tag `a ++ "v" ++ b` with
no `v` in `a` becomes `a ++ b`; a tag `"v" ++ s` becomes `s`, one character
shorter. -/
theorem normalization_removes_first_marker (w : World) (port : String) (r : Release)
    (rest : List Release) (hfeed : w.GetLatestReleases 1 = (r :: rest, none)) :
    chartCalls (registerWorkloads w port).1 = [(repo, chart, removeFirstMarker r.TagName)]
    ∧ strings.Replace r.TagName "v" "" 1 = removeFirstMarker r.TagName
    ∧ (∀ a b : String, 'v' ∉ a.data → r.TagName = a ++ "v" ++ b →
        strings.Replace r.TagName "v" "" 1 = a ++ b)
    ∧ (∀ s : String, r.TagName = "v" ++ s →
        strings.Replace r.TagName "v" "" 1 = s
        ∧ (strings.Replace r.TagName "v" "" 1).length + 1 = r.TagName.length) := by
  refine ⟨?_, Replace_v_eq_erase _, ?_, ?_⟩
  · rw [chartCalls_feed_ok w port r rest hfeed, Replace_v_eq_erase]
  · intro a b ha htag
    rw [htag, string_mk_append_marker, Replace_v_first a.data b.data ha]
    apply String.ext
    simp [String.data_append]
  · intro s htag
    have hs : strings.Replace r.TagName "v" "" 1 = s := by
      have h0 : ("v" : String) ++ s = ⟨[] ++ 'v' :: s.data⟩ := by
        apply String.ext
        simp [String.data_append]
      rw [htag, h0, Replace_v_first [] s.data (by simp)]
      rfl
    refine ⟨hs, ?_⟩
    rw [hs, htag, String.length_append]
    have : ("v" : String).length = 1 := rfl
    omega

theorem normalization_removes_first_marker_witness :
    (exampleWorld ([⟨"v1.0-dev"⟩], none) ("1.0", none)).GetLatestReleases 1
        = ([⟨"v1.0-dev"⟩], none)
    ∧ strings.Replace "v1.0-dev" "v" "" 1 = "1.0-dev"
    ∧ (strings.Replace "v1.0-dev" "v" "" 1).length + 1 = ("v1.0-dev" : String).length
    ∧ chartCalls (registerWorkloads (exampleWorld ([⟨"v1.0-dev"⟩], none) ("1.0", none)) "10010").1
        = [(repo, chart, removeFirstMarker "v1.0-dev")]
    ∧ strings.Replace "v1.0-dev" "v" "" 1 = "" ++ "1.0-dev" :=
  have h := normalization_removes_first_marker
    (exampleWorld ([⟨"v1.0-dev"⟩], none) ("1.0", none)) "10010" ⟨"v1.0-dev"⟩ [] rfl
  ⟨rfl, (h.2.2.2 "1.0-dev" rfl).1, (h.2.2.2 "1.0-dev" rfl).2, h.1,
    h.2.2.1 "" "1.0-dev" (by decide) rfl⟩

/-- C3, as amended: a tag that holds no `v` at all is returned unchanged by the
normalization; so a once-prefixed tag `"v" ++ s` whose remainder `s` holds no
`v` normalizes to `s`, and normalizing that again changes nothing. -/
theorem normalization_idempotent_without_marker (tag : String) (h : 'v' ∉ tag.data) :
    strings.Replace tag "v" "" 1 = tag
    ∧ strings.Replace ("v" ++ tag) "v" "" 1 = tag
    ∧ strings.Replace (strings.Replace ("v" ++ tag) "v" "" 1) "v" "" 1
        = strings.Replace ("v" ++ tag) "v" "" 1 := by
  have h1 : strings.Replace tag "v" "" 1 = tag := Replace_v_none tag h
  have h2 : strings.Replace ("v" ++ tag) "v" "" 1 = tag := by
    have h0 : ("v" : String) ++ tag = ⟨[] ++ 'v' :: tag.data⟩ := by
      apply String.ext
      simp [String.data_append]
    rw [h0, Replace_v_first [] tag.data (by simp)]
    rfl
  exact ⟨h1, h2, by rw [h2, h1]⟩

theorem normalization_idempotent_without_marker_witness :
    'v' ∉ ("2.5.0" : String).data
    ∧ strings.Replace "2.5.0" "v" "" 1 = "2.5.0"
    ∧ strings.Replace ("v" ++ "2.5.0") "v" "" 1 = "2.5.0"
    ∧ strings.Replace (strings.Replace ("v" ++ "2.5.0") "v" "" 1) "v" "" 1
        = strings.Replace ("v" ++ "2.5.0") "v" "" 1 :=
  ⟨by decide, normalization_idempotent_without_marker "2.5.0" (by decide)⟩

/-- C3, as stated, fails: the tag `"1.0-dev"` does not begin with `v`, yet its
normalization is `"1.0-de"`; and normalizing the once-prefixed tag `"v1.0-dev"`
twice gives `"1.0-de"`, not the `"1.0-dev"` that one normalization gives. -/
theorem normalization_not_idempotent :
    strings.HasPrefix "1.0-dev" "v" = false
    ∧ strings.Replace "1.0-dev" "v" "" 1 = "1.0-de"
    ∧ strings.Replace "1.0-dev" "v" "" 1 ≠ "1.0-dev"
    ∧ strings.Replace "v1.0-dev" "v" "" 1 = "1.0-dev"
    ∧ strings.Replace (strings.Replace "v1.0-dev" "v" "" 1) "v" "" 1
        ≠ strings.Replace "v1.0-dev" "v" "" 1 := by
  decide

/-! ## The claims about the submitted rule and the stages of a pass -/

/-- C4: the URL of the submitted rule is the fixed template around the resolved
chart version `cv`; it ends with `nginx-service-mesh-cv.tgz?raw=true`; and the
URL is a function of `cv` alone: two rules have the same URL exactly when they
were built from the same chart version. -/
theorem url_embeds_chart_version (w : World) (port : String) (r : Release)
    (rest : List Release) (hfeed : w.GetLatestReleases 1 = (r :: rest, none)) :
    (submittedRules (registerWorkloads w port).1).map (fun rule => rule.URL)
        = ["https://github.com/nginxinc/helm-charts/blob/master/stable/nginx-service-mesh-"
            ++ (w.HelmAppVersionToChartVersion repo chart
                  (strings.Replace r.TagName "v" "" 1)).1
            ++ ".tgz?raw=true"]
    ∧ (∀ (w' : World) (version cv : String),
        (dynamicComponentsConfig w' version cv).URL
          = "https://github.com/nginxinc/helm-charts/blob/master/stable/"
              ++ ("nginx-service-mesh-" ++ cv ++ ".tgz?raw=true"))
    ∧ (∀ (w₁ w₂ : World) (v₁ v₂ cv₁ cv₂ : String),
        (dynamicComponentsConfig w₁ v₁ cv₁).URL = (dynamicComponentsConfig w₂ v₂ cv₂).URL
          ↔ cv₁ = cv₂) := by
  refine ⟨?_, ?_, ?_⟩
  · rw [submittedRules_feed_ok w port r rest hfeed]
    rfl
  · intro w' version cv
    simp only [dynamicComponentsConfig]
    rw [← String.append_assoc, ← String.append_assoc]
    rfl
  · intro w₁ w₂ v₁ v₂ cv₁ cv₂
    constructor
    · intro h
      exact string_append_inner_cancel _ _ _ _ h
    · intro h
      rw [h]
      rfl

theorem url_embeds_chart_version_witness :
    (exampleWorld ([⟨"v2.5.0"⟩], none) ("2.5.0", none)).GetLatestReleases 1
        = ([⟨"v2.5.0"⟩], none)
    ∧ (submittedRules
          (registerWorkloads (exampleWorld ([⟨"v2.5.0"⟩], none) ("2.5.0", none)) "10010").1).map
        (fun rule => rule.URL)
        = ["https://github.com/nginxinc/helm-charts/blob/master/stable/nginx-service-mesh-"
            ++ "2.5.0" ++ ".tgz?raw=true"] :=
  ⟨rfl, (url_embeds_chart_version (exampleWorld ([⟨"v2.5.0"⟩], none) ("2.5.0", none)) "10010"
    ⟨"v2.5.0"⟩ [] rfl).1⟩

/-- C5, what the code does: when the feed returns an empty list and no error,
`registerWorkloads` panics at `release[0]`; it has called neither chart
resolution nor the sink, and it has logged nothing. -/
theorem feed_empty_panics (w : World) (port : String)
    (hfeed : w.GetLatestReleases 1 = ([], none)) :
    registerWorkloads w port = ([Event.GetLatestReleases 1], Outcome.panicked)
    ∧ chartCalls (registerWorkloads w port).1 = []
    ∧ submittedRules (registerWorkloads w port).1 = []
    ∧ logLines (registerWorkloads w port).1 = [] := by
  rw [registerWorkloads_feed_empty w port hfeed]
  exact ⟨rfl, rfl, rfl, rfl⟩

theorem feed_empty_panics_witness :
    (exampleWorld ([], none) ("2.5.0", none)).GetLatestReleases 1 = ([], none)
    ∧ registerWorkloads (exampleWorld ([], none) ("2.5.0", none)) "10010"
        = ([Event.GetLatestReleases 1], Outcome.panicked)
    ∧ logLines (registerWorkloads (exampleWorld ([], none) ("2.5.0", none)) "10010").1 = [] :=
  have h := feed_empty_panics (exampleWorld ([], none) ("2.5.0", none)) "10010" rfl
  ⟨rfl, h.1, h.2.2.2⟩

/-- C6: when the feed call returns an error, whatever list comes with it, the
pass logs "Could not get latest version" and returns; chart resolution and the
sink are not called. -/
theorem feed_error_aborts (w : World) (port : String) (release : List Release) (e : String)
    (hfeed : w.GetLatestReleases 1 = (release, some e)) :
    registerWorkloads w port
        = ([Event.GetLatestReleases 1, Event.logInfo ["Could not get latest version"]],
            Outcome.returned)
    ∧ chartCalls (registerWorkloads w port).1 = []
    ∧ submittedRules (registerWorkloads w port).1 = []
    ∧ logLines (registerWorkloads w port).1
        = [Event.logInfo ["Could not get latest version"]] := by
  rw [registerWorkloads_feed_error w port release e hfeed]
  exact ⟨rfl, rfl, rfl, rfl⟩

theorem feed_error_aborts_witness :
    (exampleWorld ([⟨"v2.5.0"⟩], some "rate limited") ("2.5.0", none)).GetLatestReleases 1
        = ([⟨"v2.5.0"⟩], some "rate limited")
    ∧ (registerWorkloads
          (exampleWorld ([⟨"v2.5.0"⟩], some "rate limited") ("2.5.0", none)) "10010").2
        = Outcome.returned
    ∧ chartCalls (registerWorkloads
          (exampleWorld ([⟨"v2.5.0"⟩], some "rate limited") ("2.5.0", none)) "10010").1 = []
    ∧ submittedRules (registerWorkloads
          (exampleWorld ([⟨"v2.5.0"⟩], some "rate limited") ("2.5.0", none)) "10010").1 = [] :=
  have h := feed_error_aborts
    (exampleWorld ([⟨"v2.5.0"⟩], some "rate limited") ("2.5.0", none)) "10010"
    [⟨"v2.5.0"⟩] "rate limited" rfl
  ⟨rfl, congrArg Prod.snd h.1, h.2.1, h.2.2.1⟩

/-- C7: when chart resolution fails after the feed succeeded with a non-empty
list, the pass logs the failure and goes on: it returns normally having called
the sink exactly once, with the rule built from the chart version string `cv`
that came with the error. -/
theorem chart_failure_not_fatal (w : World) (port : String) (r : Release)
    (rest : List Release) (cv e : String)
    (hfeed : w.GetLatestReleases 1 = (r :: rest, none))
    (hchart : w.HelmAppVersionToChartVersion repo chart (strings.Replace r.TagName "v" "" 1)
        = (cv, some e)) :
    (registerWorkloads w port).2 = Outcome.returned
    ∧ submittedRules (registerWorkloads w port).1 = [dynamicComponentsConfig w r.TagName cv]
    ∧ (dynamicComponentsConfig w r.TagName cv).URL
        = "https://github.com/nginxinc/helm-charts/blob/master/stable/nginx-service-mesh-"
            ++ cv ++ ".tgz?raw=true"
    ∧ Event.logInfo ["Could not change the version string", e]
        ∈ (registerWorkloads w port).1 := by
  refine ⟨registerWorkloads_returns w port r rest hfeed, ?_, rfl, ?_⟩
  · rw [submittedRules_feed_ok w port r rest hfeed, hchart]
  · unfold registerWorkloads
    rw [hfeed]
    simp only
    rw [hchart]
    split <;> simp

theorem chart_failure_not_fatal_witness :
    (exampleWorld ([⟨"v2.5.0"⟩], none) ("", some "no entry")).GetLatestReleases 1
        = ([⟨"v2.5.0"⟩], none)
    ∧ (exampleWorld ([⟨"v2.5.0"⟩], none) ("", some "no entry")).HelmAppVersionToChartVersion
          repo chart (strings.Replace "v2.5.0" "v" "" 1) = ("", some "no entry")
    ∧ (submittedRules
          (registerWorkloads (exampleWorld ([⟨"v2.5.0"⟩], none) ("", some "no entry"))
            "10010").1).map (fun rule => rule.URL)
        = ["https://github.com/nginxinc/helm-charts/blob/master/stable/nginx-service-mesh-.tgz?raw=true"] :=
  have h := chart_failure_not_fatal (exampleWorld ([⟨"v2.5.0"⟩], none) ("", some "no entry"))
    "10010" ⟨"v2.5.0"⟩ [] "" "no entry" rfl rfl
  ⟨rfl, rfl, by rw [h.2.1]; decide⟩

/-- C8, as stated, fails: with the feed `[{tag:"v2.5.0"}]` and chart resolution
returning an error, the pass still submits a rule to the sink. -/
theorem chart_failure_still_submits :
    ((exampleWorld ([⟨"v2.5.0"⟩], none) ("", some "no entry")).HelmAppVersionToChartVersion
          repo chart "2.5.0").2 = some "no entry"
    ∧ chartCalls
          (registerWorkloads (exampleWorld ([⟨"v2.5.0"⟩], none) ("", some "no entry"))
            "10010").1 = [(repo, chart, "2.5.0")]
    ∧ (submittedRules
          (registerWorkloads (exampleWorld ([⟨"v2.5.0"⟩], none) ("", some "no entry"))
            "10010").1).length = 1 := by
  decide

/-- C8, as amended: a failure of the feed short-circuits the remaining stages (no
chart resolution, no submission) and a rejection by the sink ends the pass with
the error logged; whenever the feed succeeds with a non-empty list the rule is
submitted, chart resolution having failed or not.  A chart resolution failure
is logged, after the chart resolution call and before the call of the sink: the
pass is then the feed call, the version log line, the chart resolution call, the
log line "Could not change the version string" with the error, the sink call
with the rule built from the chart version that came with the error, and one
closing log line.  A pass submits at most one rule, and it is never a partial
one: it is the whole rule of `dynamicComponentsConfig`. -/
theorem stages_of_a_pass (w : World) (port : String) :
    ((w.GetLatestReleases 1).2 ≠ none →
        chartCalls (registerWorkloads w port).1 = []
        ∧ submittedRules (registerWorkloads w port).1 = [])
    ∧ (∀ (r : Release) (rest : List Release), w.GetLatestReleases 1 = (r :: rest, none) →
        submittedRules (registerWorkloads w port).1
          = [dynamicComponentsConfig w r.TagName
              (w.HelmAppVersionToChartVersion repo chart
                (strings.Replace r.TagName "v" "" 1)).1])
    ∧ (∀ (r : Release) (rest : List Release) (e : String),
        w.GetLatestReleases 1 = (r :: rest, none) →
        w.RegisterWorkLoadsDynamically (mesheryServerAddress w) (serviceAddress w ++ ":" ++ port)
            (dynamicComponentsConfig w r.TagName
              (w.HelmAppVersionToChartVersion repo chart
                (strings.Replace r.TagName "v" "" 1)).1) = some e →
        (registerWorkloads w port).2 = Outcome.returned
        ∧ (registerWorkloads w port).1.getLast? = some (Event.logError e))
    ∧ (∀ (r : Release) (rest : List Release) (cv e : String),
        w.GetLatestReleases 1 = (r :: rest, none) →
        w.HelmAppVersionToChartVersion repo chart (strings.Replace r.TagName "v" "" 1)
          = (cv, some e) →
        ∃ closing : Event,
          (registerWorkloads w port).1
            = [Event.GetLatestReleases 1,
                Event.logInfo ["Registering latest workload components for version ", r.TagName],
                Event.HelmAppVersionToChartVersion repo chart
                  (strings.Replace r.TagName "v" "" 1),
                Event.logInfo ["Could not change the version string", e],
                Event.RegisterWorkLoadsDynamically (mesheryServerAddress w)
                  (serviceAddress w ++ ":" ++ port) (dynamicComponentsConfig w r.TagName cv),
                closing]
          ∧ (closing
                = Event.logInfo ["Latest workload components successfully registered."]
              ∨ ∃ e' : String, closing = Event.logError e'))
    ∧ (submittedRules (registerWorkloads w port).1).length ≤ 1 := by
  refine ⟨?_, ?_, ?_, ?_, ?_⟩
  · intro herr
    cases hf : w.GetLatestReleases 1 with
    | mk release err =>
      cases err with
      | none => rw [hf] at herr; exact absurd rfl herr
      | some e =>
        rw [registerWorkloads_feed_error w port release e hf]
        exact ⟨rfl, rfl⟩
  · intro r rest hfeed
    exact submittedRules_feed_ok w port r rest hfeed
  · intro r rest e hfeed hsink
    refine ⟨registerWorkloads_returns w port r rest hfeed, ?_⟩
    unfold registerWorkloads
    rw [hfeed]
    simp only
    rw [hsink]
    cases (w.HelmAppVersionToChartVersion repo chart (strings.Replace r.TagName "v" "" 1)).2
      <;> simp
  · intro r rest cv e hfeed hchart
    unfold registerWorkloads
    rw [hfeed]
    simp only
    rw [hchart]
    simp only
    split
    · exact ⟨_, rfl, Or.inr ⟨_, rfl⟩⟩
    · exact ⟨_, rfl, Or.inl rfl⟩
  · cases hf : w.GetLatestReleases 1 with
    | mk release err =>
      cases err with
      | some e => rw [registerWorkloads_feed_error w port release e hf]; simp [submittedRules]
      | none =>
        cases release with
        | nil => rw [registerWorkloads_feed_empty w port hf]; simp [submittedRules]
        | cons r rest => rw [submittedRules_feed_ok w port r rest hf]; simp

theorem stages_of_a_pass_witness :
    ((exampleWorld ([⟨"v2.5.0"⟩], some "offline") ("2.5.0", none)).GetLatestReleases 1).2 ≠ none
    ∧ chartCalls
          (registerWorkloads (exampleWorld ([⟨"v2.5.0"⟩], some "offline") ("2.5.0", none))
            "10010").1 = []
    ∧ submittedRules
          (registerWorkloads (exampleWorld ([⟨"v2.5.0"⟩], some "offline") ("2.5.0", none))
            "10010").1 = []
    ∧ rejectingWorld.GetLatestReleases 1 = ([⟨"v2.5.0"⟩], none)
    ∧ rejectingWorld.HelmAppVersionToChartVersion repo chart
          (strings.Replace "v2.5.0" "v" "" 1) = ("", some "no entry")
    ∧ rejectingWorld.RegisterWorkLoadsDynamically (mesheryServerAddress rejectingWorld)
          (serviceAddress rejectingWorld ++ ":" ++ "10010")
          (dynamicComponentsConfig rejectingWorld "v2.5.0"
            (rejectingWorld.HelmAppVersionToChartVersion repo chart
              (strings.Replace "v2.5.0" "v" "" 1)).1) = some "rejected"
    ∧ submittedRules (registerWorkloads rejectingWorld "10010").1
        = [dynamicComponentsConfig rejectingWorld "v2.5.0" ""]
    ∧ (registerWorkloads rejectingWorld "10010").2 = Outcome.returned
    ∧ (registerWorkloads rejectingWorld "10010").1.getLast? = some (Event.logError "rejected")
    ∧ (∃ closing : Event,
        (registerWorkloads rejectingWorld "10010").1
          = [Event.GetLatestReleases 1,
              Event.logInfo ["Registering latest workload components for version ", "v2.5.0"],
              Event.HelmAppVersionToChartVersion repo chart (strings.Replace "v2.5.0" "v" "" 1),
              Event.logInfo ["Could not change the version string", "no entry"],
              Event.RegisterWorkLoadsDynamically (mesheryServerAddress rejectingWorld)
                (serviceAddress rejectingWorld ++ ":" ++ "10010")
                (dynamicComponentsConfig rejectingWorld "v2.5.0" ""),
              closing]
        ∧ (closing = Event.logInfo ["Latest workload components successfully registered."]
            ∨ ∃ e' : String, closing = Event.logError e')) :=
  have ha := stages_of_a_pass
    (exampleWorld ([⟨"v2.5.0"⟩], some "offline") ("2.5.0", none)) "10010"
  have hb := stages_of_a_pass rejectingWorld "10010"
  ⟨by decide, (ha.1 (by decide)).1, (ha.1 (by decide)).2, rfl, rfl, rfl,
    hb.2.1 ⟨"v2.5.0"⟩ [] rfl,
    (hb.2.2.1 ⟨"v2.5.0"⟩ [] "rejected" rfl rfl).1,
    (hb.2.2.1 ⟨"v2.5.0"⟩ [] "rejected" rfl rfl).2,
    hb.2.2.2.1 ⟨"v2.5.0"⟩ [] "" "no entry" rfl rfl⟩

/-- C10: whatever the tag and the chart version, the submitted rule has a timeout
of 60 minutes, the Helm chart generation method and the one constant filter,
whose nine fields are all populated; the mesh version and the URL are the only
parts that follow the tag and the chart version. -/
theorem rule_fully_populated (w : World) (port : String) (r : Release)
    (rest : List Release) (hfeed : w.GetLatestReleases 1 = (r :: rest, none)) :
    ∃ rule : DynamicComponentsConfig,
      submittedRules (registerWorkloads w port).1 = [rule]
      ∧ rule.TimeoutInMinutes = 60
      ∧ rule.GenerationMethod = GenerationMethod.HelmCHARTS
      ∧ rule.Config.Filter = crdFilter
      ∧ rule.Config.Filter.FullyPopulated
      ∧ rule.Config.Name = w.ServiceMeshTypeName
      ∧ rule.Operation = w.NginxOperation
      ∧ rule.Config.MeshVersion = r.TagName
      ∧ rule.URL
          = "https://github.com/nginxinc/helm-charts/blob/master/stable/nginx-service-mesh-"
            ++ (w.HelmAppVersionToChartVersion repo chart
                  (strings.Replace r.TagName "v" "" 1)).1
            ++ ".tgz?raw=true" := by
  refine ⟨_, submittedRules_feed_ok w port r rest hfeed, rfl, rfl, rfl, ?_, rfl, rfl, rfl, rfl⟩
  show crdFilter.FullyPopulated
  simp [CrdFilter.FullyPopulated, populated, crdFilter]

theorem rule_fully_populated_witness :
    (exampleWorld ([⟨"v2.5.0"⟩], none) ("2.5.0", none)).GetLatestReleases 1
        = ([⟨"v2.5.0"⟩], none)
    ∧ ∃ rule : DynamicComponentsConfig,
      submittedRules
          (registerWorkloads (exampleWorld ([⟨"v2.5.0"⟩], none) ("2.5.0", none)) "10010").1
        = [rule]
      ∧ rule.TimeoutInMinutes = 60
      ∧ rule.GenerationMethod = GenerationMethod.HelmCHARTS
      ∧ rule.Config.Filter.FullyPopulated :=
  have h := rule_fully_populated (exampleWorld ([⟨"v2.5.0"⟩], none) ("2.5.0", none)) "10010"
    ⟨"v2.5.0"⟩ [] rfl
  ⟨rfl, h.elim (fun rule hr => ⟨rule, hr.1, hr.2.1, hr.2.2.1, hr.2.2.2.2.1⟩)⟩

/-! ## The refresh loop -/

end MesheryNginx
